import Mathlib

/-!
# MAGTieredStaking — shallow embedding

Shallow embedding of the `MAGTieredStaking` Solidity contract
(tiered, time-locked staking ledger).  Machine integers are modelled as
`Nat` with explicit checked uint256 arithmetic (Solidity ^0.8 reverts on
overflow/underflow), and every external function is a pure Lean function
`State → arguments → Except Err result`: an `Except.error` models a
reverted transaction, after which the pre-state persists unchanged.
Outcomes of the external ERC20 `transfer`/`transferFrom` calls are passed
in as explicit `Bool` parameters (the token layer is an external
collaborator).  Addresses are modelled as `Nat`; the `mapping(address =>
StakeInfo)` is an association list whose lookup defaults to the
zero-initialised struct, exactly as a Solidity mapping does.
-/

deriving instance DecidableEq for Except

/-- `uint256` overflow bound. -/
def UINT256_SIZE : Nat := 2 ^ 256

/-- `PERCENTAGE_DENOMINATOR = 10000` (100% = 10000 basis points). -/
def PERCENTAGE_DENOMINATOR : Nat := 10000

/-- Solidity `1 days`, in seconds. -/
def SECONDS_PER_DAY : Nat := 86400

/-- Solidity `365 days`, in seconds. -/
def SECONDS_PER_YEAR : Nat := 365 * SECONDS_PER_DAY

/-- Checked uint256 addition: reverts on overflow (Solidity ^0.8). -/
def checkedAdd (a b : Nat) : Option Nat :=
  if a + b < UINT256_SIZE then some (a + b) else none

/-- Checked uint256 subtraction: reverts on underflow (Solidity ^0.8). -/
def checkedSub (a b : Nat) : Option Nat :=
  if b ≤ a then some (a - b) else none

/-- Checked uint256 multiplication: reverts on overflow (Solidity ^0.8). -/
def checkedMul (a b : Nat) : Option Nat :=
  if a * b < UINT256_SIZE then some (a * b) else none

/-- `struct StakingTier { uint256 lockPeriod; uint256 apy; }` -/
structure StakingTier where
  lockPeriod : Nat
  apy : Nat
deriving Repr, DecidableEq, Inhabited

/-- `struct StakeInfo` — per-user stake record.  The zero value (all
fields `0`, `initialized = false`) is what an untouched mapping slot
holds. -/
structure StakeInfo where
  amount : Nat
  stakingStartTime : Nat
  lockEndTime : Nat
  apy : Nat
  lastRewardClaimTime : Nat
  initialized : Bool
deriving Repr, DecidableEq, Inhabited

/-- Revert reasons of the contract, one per `require`/modifier failure,
plus `arithmeticOverflow` for a checked-arithmetic revert. -/
inductive Err where
  | cannotStakeZero
  | existingStakeFound
  | invalidLockPeriod
  | invalidAPY
  | lockPeriodExists
  | invalidTierIndex
  | transferFailed
  | rewardsTransferFailed
  | noStakeFound
  | stakeStillLocked
  | noRewardsToClaim
  | amountZero
  | enforcedPause
  | expectedPause
  | notOwner
  | arithmeticOverflow
deriving Repr, DecidableEq

/-- The contract's storage: `stakes` mapping (association list, lookup
defaults to the zero struct), `totalStaked`, `rewardPoolBalance`, the
`stakingTiers` array, the `Pausable` flag and the `Ownable` owner. -/
structure State where
  stakes : List (Nat × StakeInfo)
  totalStaked : Nat
  rewardPoolBalance : Nat
  stakingTiers : List StakingTier
  paused : Bool
  owner : Nat
deriving Repr, DecidableEq

/-- Remove every entry of account `a` from the stakes list. -/
def eraseAcct (l : List (Nat × StakeInfo)) (a : Nat) : List (Nat × StakeInfo) :=
  l.filter (fun p => p.1 != a)

/-- Mapping lookup on the association list, defaulting to the zero
struct as a Solidity mapping does. -/
def getStakeL (l : List (Nat × StakeInfo)) (a : Nat) : StakeInfo :=
  match l.find? (fun p => p.1 == a) with
  | some p => p.2
  | none => default

/-- `stakes[user]` -/
def getStake (s : State) (a : Nat) : StakeInfo :=
  getStakeL s.stakes a

/-- `stakes[user] = info` -/
def setStake (s : State) (a : Nat) (info : StakeInfo) : State :=
  { s with stakes := (a, info) :: eraseAcct s.stakes a }

/-- `delete stakes[user]` — resets the slot to the zero struct, which in
the association-list model is removal of the entry. -/
def deleteStake (s : State) (a : Nat) : State :=
  { s with stakes := eraseAcct s.stakes a }

/-- `getAPYForLockPeriod`: linear scan for an exact lock-period match,
reverting with "Invalid lock period" when none exists. -/
def getAPYForLockPeriod (s : State) (lockPeriod : Nat) : Except Err Nat :=
  match s.stakingTiers.find? (fun t => t.lockPeriod == lockPeriod) with
  | some t => .ok t.apy
  | none => .error .invalidLockPeriod

/-- `calculateRewards(user)` at `block.timestamp = now`:
returns 0 for a missing/empty stake, otherwise
`amount * apy * timeElapsed / (365 days * PERCENTAGE_DENOMINATOR)` with
checked uint256 arithmetic evaluated left to right. -/
def calculateRewards (s : State) (user now : Nat) : Except Err Nat :=
  if (getStake s user).initialized = false ∨ (getStake s user).amount = 0 then .ok 0
  else
    match checkedSub now (getStake s user).lastRewardClaimTime with
    | none => .error .arithmeticOverflow
    | some timeElapsed =>
      match checkedMul (getStake s user).amount (getStake s user).apy with
      | none => .error .arithmeticOverflow
      | some p1 =>
        match checkedMul p1 timeElapsed with
        | none => .error .arithmeticOverflow
        | some num => .ok (num / (SECONDS_PER_YEAR * PERCENTAGE_DENOMINATOR))

/-- `stake(amount, lockPeriodInDays)` called by `sender` at
`block.timestamp = now`; `pullOk` is the result of the
`transferFrom(sender, this, amount)` call. -/
def stake (s : State) (sender amount lockPeriodInDays now : Nat)
    (pullOk : Bool) : Except Err State :=
  if s.paused then .error .enforcedPause
  else if amount = 0 then .error .cannotStakeZero
  else if (getStake s sender).initialized = true ∧ (getStake s sender).amount ≠ 0 then
    .error .existingStakeFound
  else
    match getAPYForLockPeriod s lockPeriodInDays with
    | .error e => .error e
    | .ok apy =>
      match checkedMul lockPeriodInDays SECONDS_PER_DAY with
      | none => .error .arithmeticOverflow
      | some lockSeconds =>
        match checkedAdd now lockSeconds with
        | none => .error .arithmeticOverflow
        | some lockEndTime =>
          if pullOk = false then .error .transferFailed
          else
            match checkedAdd s.totalStaked amount with
            | none => .error .arithmeticOverflow
            | some newTotal =>
              .ok { setStake s sender
                      { amount := amount
                        stakingStartTime := now
                        lockEndTime := lockEndTime
                        apy := apy
                        lastRewardClaimTime := now
                        initialized := true }
                    with totalStaked := newTotal }

/-- `unstake()` called by `sender` at `block.timestamp = now`;
`pushOk` / `rewardsPushOk` are the results of the principal and (when
attempted) reward `transfer` calls.  Returns the post-state, the
principal paid and the reward paid. -/
def unstake (s : State) (sender now : Nat) (pushOk rewardsPushOk : Bool) :
    Except Err (State × Nat × Nat) :=
  if (getStake s sender).initialized = true ∧ 0 < (getStake s sender).amount then
    if now < (getStake s sender).lockEndTime then .error .stakeStillLocked
    else
      match calculateRewards s sender now with
      | .error e => .error e
      | .ok rewards =>
        match checkedSub s.totalStaked (getStake s sender).amount with
        | none => .error .arithmeticOverflow
        | some newTotal =>
          if pushOk = false then .error .transferFailed
          else if 0 < rewards ∧ rewardsPushOk = false then .error .rewardsTransferFailed
          else .ok ({ deleteStake s sender with totalStaked := newTotal },
                    (getStake s sender).amount, rewards)
  else .error .noStakeFound

/-- `claimRewards()` called by `sender` at `block.timestamp = now`;
`pushOk` is the result of the reward `transfer`.  Returns the post-state
and the reward paid. -/
def claimRewards (s : State) (sender now : Nat) (pushOk : Bool) :
    Except Err (State × Nat) :=
  if s.paused then .error .enforcedPause
  else
    if (getStake s sender).initialized = true ∧ 0 < (getStake s sender).amount then
      match calculateRewards s sender now with
      | .error e => .error e
      | .ok rewards =>
        if rewards = 0 then .error .noRewardsToClaim
        else if pushOk = false then .error .rewardsTransferFailed
        else .ok (setStake s sender
                    { getStake s sender with lastRewardClaimTime := now }, rewards)
    else .error .noStakeFound

/-- `emergencyWithdraw()` called by `sender`; `pushOk` is the result of
the principal `transfer`.  Never reads the clock and never calls
`calculateRewards`.  Returns the post-state and the principal paid. -/
def emergencyWithdraw (s : State) (sender : Nat) (pushOk : Bool) :
    Except Err (State × Nat) :=
  if (getStake s sender).initialized = true ∧ 0 < (getStake s sender).amount then
    match checkedSub s.totalStaked (getStake s sender).amount with
    | none => .error .arithmeticOverflow
    | some newTotal =>
      if pushOk = false then .error .transferFailed
      else .ok ({ deleteStake s sender with totalStaked := newTotal },
                (getStake s sender).amount)
  else .error .noStakeFound

/-- `addStakingTier(lockPeriod, apy)` — `onlyOwner`. -/
def addStakingTier (s : State) (sender lockPeriod apy : Nat) : Except Err State :=
  if sender ≠ s.owner then .error .notOwner
  else if lockPeriod = 0 then .error .invalidLockPeriod
  else if apy = 0 ∨ 3000 < apy then .error .invalidAPY
  else if s.stakingTiers.any (fun t => t.lockPeriod == lockPeriod) then
    .error .lockPeriodExists
  else .ok { s with stakingTiers :=
               s.stakingTiers ++ [{ lockPeriod := lockPeriod, apy := apy }] }

/-- `updateStakingTier(index, apy)` — `onlyOwner`; mutates only the APY
of the tier at `index`. -/
def updateStakingTier (s : State) (sender index apy : Nat) : Except Err State :=
  if sender ≠ s.owner then .error .notOwner
  else if s.stakingTiers.length ≤ index then .error .invalidTierIndex
  else if apy = 0 ∨ 3000 < apy then .error .invalidAPY
  else
    let tier := s.stakingTiers.getD index default
    .ok { s with stakingTiers := s.stakingTiers.set index { tier with apy := apy } }

/-- `pause()` — `onlyOwner`; `Pausable._pause` reverts when already
paused. -/
def pause (s : State) (sender : Nat) : Except Err State :=
  if sender ≠ s.owner then .error .notOwner
  else if s.paused then .error .enforcedPause
  else .ok { s with paused := true }

/-- `unpause()` — `onlyOwner`; `Pausable._unpause` reverts when not
paused. -/
def unpause (s : State) (sender : Nat) : Except Err State :=
  if sender ≠ s.owner then .error .notOwner
  else if s.paused = false then .error .expectedPause
  else .ok { s with paused := false }

/-- `fundRewardPool(amount)` called by `sender`; `pullOk` is the result
of the `transferFrom` pull, which the source performs only after
incrementing `rewardPoolBalance` (the increment is rolled back by the
revert when the pull fails). -/
def fundRewardPool (s : State) (sender amount : Nat) (pullOk : Bool) :
    Except Err State :=
  if amount = 0 then .error .amountZero
  else
    match checkedAdd s.rewardPoolBalance amount with
    | none => .error .arithmeticOverflow
    | some newBal =>
      if pullOk = false then .error .transferFailed
      else .ok { s with rewardPoolBalance := newBal }

/-- One external transaction against the contract. -/
inductive Op where
  | stakeOp (sender amount lockPeriodInDays now : Nat) (pullOk : Bool)
  | unstakeOp (sender now : Nat) (pushOk rewardsPushOk : Bool)
  | claimOp (sender now : Nat) (pushOk : Bool)
  | emergencyOp (sender : Nat) (pushOk : Bool)
  | addTierOp (sender lockPeriod apy : Nat)
  | updateTierOp (sender index apy : Nat)
  | pauseOp (sender : Nat)
  | unpauseOp (sender : Nat)
  | fundOp (sender amount : Nat) (pullOk : Bool)
deriving Repr, DecidableEq

/-- Revert semantics: an errored transaction leaves storage unchanged. -/
def runState (r : Except Err State) (s : State) : State :=
  match r with
  | .ok s1 => s1
  | .error _ => s

/-- Revert semantics for an operation also returning one payout. -/
def runState1 (r : Except Err (State × Nat)) (s : State) : State :=
  match r with
  | .ok p => p.1
  | .error _ => s

/-- Revert semantics for an operation also returning two payouts. -/
def runState2 (r : Except Err (State × Nat × Nat)) (s : State) : State :=
  match r with
  | .ok p => p.1
  | .error _ => s

/-- Storage after a transaction: the new state on success, the pre-state
on revert. -/
def applyOp (s : State) : Op → State
  | .stakeOp sender amount lp now pullOk => runState (stake s sender amount lp now pullOk) s
  | .unstakeOp sender now ok1 ok2 => runState2 (unstake s sender now ok1 ok2) s
  | .claimOp sender now ok => runState1 (claimRewards s sender now ok) s
  | .emergencyOp sender ok => runState1 (emergencyWithdraw s sender ok) s
  | .addTierOp sender lp apy => runState (addStakingTier s sender lp apy) s
  | .updateTierOp sender idx apy => runState (updateStakingTier s sender idx apy) s
  | .pauseOp sender => runState (pause s sender) s
  | .unpauseOp sender => runState (unpause s sender) s
  | .fundOp sender amount ok => runState (fundRewardPool s sender amount ok) s

/-- The constructor's post-state: three initial tiers
(30d/15%, 60d/22.5%, 90d/30%), empty ledger, unpaused. -/
def initialState (owner : Nat) : State :=
  { stakes := []
    totalStaked := 0
    rewardPoolBalance := 0
    stakingTiers := [⟨30, 1500⟩, ⟨60, 2250⟩, ⟨90, 3000⟩]
    paused := false
    owner := owner }

/-- States reachable from some constructor call by external
transactions. -/
inductive Reachable : State → Prop where
  | init (owner : Nat) : Reachable (initialState owner)
  | step {s : State} (op : Op) : Reachable s → Reachable (applyOp s op)

/-- A stake record counts as active when `initialized && amount > 0`
(the guard every stateful entry point uses). -/
def isActive (info : StakeInfo) : Bool :=
  info.initialized && decide (0 < info.amount)

/-- Contribution of one record to the active-stake total. -/
def activeAmount (info : StakeInfo) : Nat :=
  if isActive info then info.amount else 0

/-- Σ amount over active records. -/
def sumActive (l : List (Nat × StakeInfo)) : Nat :=
  (l.map (fun p => activeAmount p.2)).sum

/-- Well-formed storage: mapping keys are distinct (true of any real
mapping) and `totalStaked` equals the sum of active stake amounts. -/
def WF (s : State) : Prop :=
  (s.stakes.map Prod.fst).Nodup ∧ s.totalStaked = sumActive s.stakes

lemma isActive_iff (i : StakeInfo) :
    isActive i = true ↔ i.initialized = true ∧ i.amount ≠ 0 := by
  simp [isActive, Nat.pos_iff_ne_zero]

lemma activeAmount_of_active {i : StakeInfo}
    (h : i.initialized = true ∧ i.amount ≠ 0) : activeAmount i = i.amount := by
  rw [activeAmount, if_pos ((isActive_iff i).mpr h)]

lemma activeAmount_of_inactive {i : StakeInfo}
    (h : ¬ (i.initialized = true ∧ i.amount ≠ 0)) : activeAmount i = 0 := by
  rw [activeAmount, if_neg]
  intro hc
  exact h ((isActive_iff i).mp hc)

lemma sumActive_cons (x : Nat × StakeInfo) (t : List (Nat × StakeInfo)) :
    sumActive (x :: t) = activeAmount x.2 + sumActive t := by
  simp [sumActive]

lemma find?_eq_none_of_not_mem_keys {l : List (Nat × StakeInfo)} {a : Nat}
    (h : a ∉ l.map Prod.fst) : l.find? (fun p => p.1 == a) = none := by
  induction l with
  | nil => rfl
  | cons x t ih =>
    simp only [List.map_cons, List.mem_cons, not_or] at h
    have hx : (x.1 == a) = false := by
      simp only [beq_eq_false_iff_ne]
      exact fun hc => h.1 hc.symm
    simp only [List.find?_cons, hx]
    exact ih h.2

lemma eraseAcct_of_not_mem {l : List (Nat × StakeInfo)} {a : Nat}
    (h : a ∉ l.map Prod.fst) : eraseAcct l a = l := by
  induction l with
  | nil => rfl
  | cons x t ih =>
    simp only [List.map_cons, List.mem_cons, not_or] at h
    rw [eraseAcct, List.filter_cons, if_pos, ← eraseAcct, ih h.2]
    simp [bne_iff_ne]
    exact fun hc => h.1 hc.symm

lemma keys_eraseAcct_sublist (l : List (Nat × StakeInfo)) (a : Nat) :
    ((eraseAcct l a).map Prod.fst).Sublist (l.map Prod.fst) :=
  (List.filter_sublist l).map Prod.fst

lemma nodup_keys_eraseAcct {l : List (Nat × StakeInfo)} (a : Nat)
    (h : (l.map Prod.fst).Nodup) : ((eraseAcct l a).map Prod.fst).Nodup :=
  h.sublist (keys_eraseAcct_sublist l a)

lemma not_mem_keys_eraseAcct (l : List (Nat × StakeInfo)) (a : Nat) :
    a ∉ (eraseAcct l a).map Prod.fst := by
  intro hmem
  rcases List.mem_map.mp hmem with ⟨p, hp, hpa⟩
  rcases List.mem_filter.mp hp with ⟨_, hne⟩
  rw [hpa] at hne
  simp [bne_iff_ne] at hne

lemma sumActive_eraseAcct {l : List (Nat × StakeInfo)} {a : Nat}
    (h : (l.map Prod.fst).Nodup) :
    sumActive l = activeAmount (getStakeL l a) + sumActive (eraseAcct l a) := by
  induction l with
  | nil => simp [sumActive, eraseAcct, getStakeL, activeAmount, isActive]
  | cons x t ih =>
    simp only [List.map_cons, List.nodup_cons] at h
    by_cases hx : x.1 = a
    · have hb : (x.1 == a) = true := by simp [hx]
      rw [getStakeL]
      simp only [List.find?_cons, hb]
      rw [eraseAcct, List.filter_cons, if_neg (by simp [hx]), ← eraseAcct]
      rw [eraseAcct_of_not_mem (hx ▸ h.1), sumActive_cons]
    · have hb : (x.1 == a) = false := by simp [hx]
      rw [getStakeL]
      simp only [List.find?_cons, hb]
      rw [← getStakeL]
      rw [eraseAcct, List.filter_cons, if_pos (by simp [bne_iff_ne, hx]), ← eraseAcct]
      rw [sumActive_cons, sumActive_cons, ih h.2]
      omega

lemma wf_setStake {s : State} (a : Nat) (i : StakeInfo) (h : WF s)
    (hold : ¬ ((getStake s a).initialized = true ∧ (getStake s a).amount ≠ 0)) :
    ((setStake s a i).stakes.map Prod.fst).Nodup ∧
      sumActive (setStake s a i).stakes = activeAmount i + s.totalStaked := by
  obtain ⟨hnd, hsum⟩ := h
  constructor
  · rw [setStake]
    simp only [List.map_cons]
    exact List.nodup_cons.mpr ⟨not_mem_keys_eraseAcct _ _, nodup_keys_eraseAcct _ hnd⟩
  · simp only [getStake] at hold
    rw [setStake]
    simp only
    rw [sumActive_cons, hsum, sumActive_eraseAcct (a := a) hnd,
        activeAmount_of_inactive hold]
    dsimp only
    omega

lemma checkedAdd_some {a b c : Nat} (h : checkedAdd a b = some c) :
    c = a + b ∧ a + b < UINT256_SIZE := by
  unfold checkedAdd at h
  split at h
  · cases h
    exact ⟨rfl, by assumption⟩
  · cases h

lemma checkedSub_some {a b c : Nat} (h : checkedSub a b = some c) :
    b ≤ a ∧ c = a - b := by
  unfold checkedSub at h
  split at h
  · cases h
    exact ⟨by assumption, rfl⟩
  · cases h

lemma checkedMul_some {a b c : Nat} (h : checkedMul a b = some c) :
    c = a * b ∧ a * b < UINT256_SIZE := by
  unfold checkedMul at h
  split at h
  · cases h
    exact ⟨rfl, by assumption⟩
  · cases h

lemma wf_stake_aux {s : State} {sender amount now lockEnd apy newTotal : Nat}
    (hwf : WF s)
    (hexist : ¬ ((getStake s sender).initialized = true ∧ (getStake s sender).amount ≠ 0))
    (hamount : ¬ amount = 0)
    (hadd : checkedAdd s.totalStaked amount = some newTotal) :
    WF { setStake s sender
           { amount := amount, stakingStartTime := now, lockEndTime := lockEnd,
             apy := apy, lastRewardClaimTime := now, initialized := true }
         with totalStaked := newTotal } := by
  obtain ⟨hc, _⟩ := checkedAdd_some hadd
  obtain ⟨hnd1, hsum1⟩ := wf_setStake sender
    { amount := amount, stakingStartTime := now, lockEndTime := lockEnd,
      apy := apy, lastRewardClaimTime := now, initialized := true } hwf hexist
  refine ⟨hnd1, ?_⟩
  rw [hsum1, activeAmount_of_active ⟨rfl, hamount⟩]
  simp only
  omega

lemma wf_delete_aux {s : State} {sender newTotal : Nat}
    (hwf : WF s)
    (hact : (getStake s sender).initialized = true ∧ 0 < (getStake s sender).amount)
    (hsub : checkedSub s.totalStaked (getStake s sender).amount = some newTotal) :
    WF { deleteStake s sender with totalStaked := newTotal } := by
  obtain ⟨hnd, hsum⟩ := hwf
  obtain ⟨hle, hc⟩ := checkedSub_some hsub
  refine ⟨nodup_keys_eraseAcct _ hnd, ?_⟩
  have herase := sumActive_eraseAcct (a := sender) hnd
  have hamt : activeAmount (getStakeL s.stakes sender) = (getStake s sender).amount := by
    rw [← getStake]
    exact activeAmount_of_active ⟨hact.1, Nat.pos_iff_ne_zero.mp hact.2⟩
  rw [hamt] at herase
  show newTotal = sumActive (eraseAcct s.stakes sender)
  omega

lemma wf_claim_aux {s : State} {sender now : Nat}
    (hwf : WF s) :
    WF (setStake s sender { getStake s sender with lastRewardClaimTime := now }) := by
  obtain ⟨hnd, hsum⟩ := hwf
  constructor
  · rw [setStake]
    simp only [List.map_cons]
    exact List.nodup_cons.mpr ⟨not_mem_keys_eraseAcct _ _, nodup_keys_eraseAcct _ hnd⟩
  · have herase := sumActive_eraseAcct (a := sender) hnd
    show s.totalStaked = sumActive ((sender, _) :: eraseAcct s.stakes sender)
    rw [sumActive_cons]
    have hsame : activeAmount { getStake s sender with lastRewardClaimTime := now }
        = activeAmount (getStakeL s.stakes sender) := by
      rw [← getStake]
      simp [activeAmount, isActive]
    simp only
    rw [hsame]
    omega

lemma wf_frame {s s1 : State} (hwf : WF s)
    (hstakes : s1.stakes = s.stakes) (htotal : s1.totalStaked = s.totalStaked) :
    WF s1 := by
  obtain ⟨hnd, hsum⟩ := hwf
  exact ⟨hstakes ▸ hnd, by rw [hstakes, htotal]; exact hsum⟩

lemma wf_stake {s s1 : State} {sender amount lp now : Nat} {pullOk : Bool}
    (hwf : WF s) (h : stake s sender amount lp now pullOk = .ok s1) : WF s1 := by
  unfold stake at h
  repeat' split at h
  all_goals cases h
  exact wf_stake_aux hwf (by assumption) (by assumption) (by assumption)

lemma wf_unstake {s : State} {r : State × Nat × Nat} {sender now : Nat}
    {pushOk rewardsPushOk : Bool}
    (hwf : WF s) (h : unstake s sender now pushOk rewardsPushOk = .ok r) : WF r.1 := by
  unfold unstake at h
  repeat' split at h
  all_goals cases h
  all_goals exact wf_delete_aux hwf (by assumption) (by assumption)

lemma wf_claimRewards {s : State} {r : State × Nat} {sender now : Nat} {pushOk : Bool}
    (hwf : WF s) (h : claimRewards s sender now pushOk = .ok r) : WF r.1 := by
  unfold claimRewards at h
  repeat' split at h
  all_goals cases h
  exact wf_claim_aux hwf

lemma wf_emergencyWithdraw {s : State} {r : State × Nat} {sender : Nat} {pushOk : Bool}
    (hwf : WF s) (h : emergencyWithdraw s sender pushOk = .ok r) : WF r.1 := by
  unfold emergencyWithdraw at h
  repeat' split at h
  all_goals cases h
  exact wf_delete_aux hwf (by assumption) (by assumption)

lemma wf_addStakingTier {s s1 : State} {sender lp apy : Nat}
    (hwf : WF s) (h : addStakingTier s sender lp apy = .ok s1) : WF s1 := by
  unfold addStakingTier at h
  repeat' split at h
  all_goals cases h
  exact wf_frame hwf rfl rfl

lemma wf_updateStakingTier {s s1 : State} {sender index apy : Nat}
    (hwf : WF s) (h : updateStakingTier s sender index apy = .ok s1) : WF s1 := by
  unfold updateStakingTier at h
  repeat' split at h
  all_goals cases h
  exact wf_frame hwf rfl rfl

lemma wf_pause {s s1 : State} {sender : Nat}
    (hwf : WF s) (h : pause s sender = .ok s1) : WF s1 := by
  unfold pause at h
  repeat' split at h
  all_goals cases h
  exact wf_frame hwf rfl rfl

lemma wf_unpause {s s1 : State} {sender : Nat}
    (hwf : WF s) (h : unpause s sender = .ok s1) : WF s1 := by
  unfold unpause at h
  repeat' split at h
  all_goals cases h
  exact wf_frame hwf rfl rfl

lemma wf_fundRewardPool {s s1 : State} {sender amount : Nat} {pullOk : Bool}
    (hwf : WF s) (h : fundRewardPool s sender amount pullOk = .ok s1) : WF s1 := by
  unfold fundRewardPool at h
  repeat' split at h
  all_goals cases h
  exact wf_frame hwf rfl rfl

lemma wf_applyOp (s : State) (op : Op) (hwf : WF s) : WF (applyOp s op) := by
  cases op with
  | stakeOp sender amount lp now pullOk =>
    show WF (runState (stake s sender amount lp now pullOk) s)
    cases hres : stake s sender amount lp now pullOk with
    | error e => exact hwf
    | ok s1 => exact wf_stake hwf hres
  | unstakeOp sender now ok1 ok2 =>
    show WF (runState2 (unstake s sender now ok1 ok2) s)
    cases hres : unstake s sender now ok1 ok2 with
    | error e => exact hwf
    | ok r => exact wf_unstake hwf hres
  | claimOp sender now ok =>
    show WF (runState1 (claimRewards s sender now ok) s)
    cases hres : claimRewards s sender now ok with
    | error e => exact hwf
    | ok r => exact wf_claimRewards hwf hres
  | emergencyOp sender ok =>
    show WF (runState1 (emergencyWithdraw s sender ok) s)
    cases hres : emergencyWithdraw s sender ok with
    | error e => exact hwf
    | ok r => exact wf_emergencyWithdraw hwf hres
  | addTierOp sender lp apy =>
    show WF (runState (addStakingTier s sender lp apy) s)
    cases hres : addStakingTier s sender lp apy with
    | error e => exact hwf
    | ok s1 => exact wf_addStakingTier hwf hres
  | updateTierOp sender idx apy =>
    show WF (runState (updateStakingTier s sender idx apy) s)
    cases hres : updateStakingTier s sender idx apy with
    | error e => exact hwf
    | ok s1 => exact wf_updateStakingTier hwf hres
  | pauseOp sender =>
    show WF (runState (pause s sender) s)
    cases hres : pause s sender with
    | error e => exact hwf
    | ok s1 => exact wf_pause hwf hres
  | unpauseOp sender =>
    show WF (runState (unpause s sender) s)
    cases hres : unpause s sender with
    | error e => exact hwf
    | ok s1 => exact wf_unpause hwf hres
  | fundOp sender amount ok =>
    show WF (runState (fundRewardPool s sender amount ok) s)
    cases hres : fundRewardPool s sender amount ok with
    | error e => exact hwf
    | ok s1 => exact wf_fundRewardPool hwf hres

lemma wf_initialState (o : Nat) : WF (initialState o) := by
  constructor <;> simp [initialState, sumActive]

lemma wf_reachable {s : State} (h : Reachable s) : WF s := by
  induction h with
  | init o => exact wf_initialState o
  | step op _ ih => exact wf_applyOp _ op ih

/-- Example stake record: 1000 units at the 30-day / 15% tier, opened at
time 0 (used to instantiate hypothesis-bearing theorems). -/
def exStake : StakeInfo :=
  { amount := 1000, stakingStartTime := 0, lockEndTime := 30 * 86400,
    apy := 1500, lastRewardClaimTime := 0, initialized := true }

/-- Example storage: account 1 holds `exStake`, `totalStaked = 1000`. -/
def exState : State :=
  setStake { initialState 0 with totalStaked := 1000 } 1 exStake

/-- C1: in every reachable ledger state `totalStaked` equals the sum of
`amount` over active stake records; moreover a successful `stake` adds
exactly the staked amount to `totalStaked`, and a successful `unstake`
or `emergencyWithdraw` subtracts exactly the deleted record's amount. -/
theorem totalStaked_eq_sum_active :
    (∀ s : State, Reachable s → s.totalStaked = sumActive s.stakes) ∧
    (∀ (s s1 : State) (sender amount lp now : Nat) (pullOk : Bool),
        stake s sender amount lp now pullOk = .ok s1 →
        s1.totalStaked = s.totalStaked + amount) ∧
    (∀ (s : State) (r : State × Nat × Nat) (sender now : Nat) (ok1 ok2 : Bool),
        unstake s sender now ok1 ok2 = .ok r →
        r.1.totalStaked = s.totalStaked - (getStake s sender).amount ∧
        r.2.1 = (getStake s sender).amount) ∧
    (∀ (s : State) (r : State × Nat) (sender : Nat) (ok : Bool),
        emergencyWithdraw s sender ok = .ok r →
        r.1.totalStaked = s.totalStaked - (getStake s sender).amount ∧
        r.2 = (getStake s sender).amount) := by
  refine ⟨fun s h => (wf_reachable h).2, ?_, ?_, ?_⟩
  · intro s s1 sender amount lp now pullOk h
    unfold stake at h
    repeat' split at h
    all_goals cases h
    exact (checkedAdd_some (by assumption)).1
  · intro s r sender now ok1 ok2 h
    unfold unstake at h
    repeat' split at h
    all_goals cases h
    all_goals exact ⟨(checkedSub_some (by assumption)).2, rfl⟩
  · intro s r sender ok h
    unfold emergencyWithdraw at h
    repeat' split at h
    all_goals cases h
    exact ⟨(checkedSub_some (by assumption)).2, rfl⟩

/-- Witness for C1 at concrete inputs: one stake into the fresh ledger,
and an unstake / emergency exit out of `exState`. -/
theorem totalStaked_eq_sum_active_witness :
    ((applyOp (initialState 0) (Op.stakeOp 1 1000 30 0 true)).totalStaked =
      sumActive (applyOp (initialState 0) (Op.stakeOp 1 1000 30 0 true)).stakes) ∧
    ((applyOp (initialState 0) (Op.stakeOp 1 1000 30 0 true)).totalStaked =
      (initialState 0).totalStaked + 1000) ∧
    ((applyOp exState (Op.unstakeOp 1 (30 * 86400) true true), 1000, 12).1.totalStaked =
      exState.totalStaked - (getStake exState 1).amount ∧
     (applyOp exState (Op.unstakeOp 1 (30 * 86400) true true), 1000, 12).2.1 =
      (getStake exState 1).amount) ∧
    ((applyOp exState (Op.emergencyOp 1 true), 1000).1.totalStaked =
      exState.totalStaked - (getStake exState 1).amount ∧
     (applyOp exState (Op.emergencyOp 1 true), 1000).2 =
      (getStake exState 1).amount) :=
  ⟨totalStaked_eq_sum_active.1 _ (Reachable.step _ (Reachable.init 0)),
   totalStaked_eq_sum_active.2.1 _ _ 1 1000 30 0 true (by decide),
   totalStaked_eq_sum_active.2.2.1 exState _ 1 (30 * 86400) true true (by decide),
   totalStaked_eq_sum_active.2.2.2 exState _ 1 true (by decide)⟩

/-- C10: for an account with no active stake record (missing, or zero
amount) `calculateRewards` returns 0 and never reverts. -/
theorem calculateRewards_idle_is_zero (s : State) (user now : Nat)
    (h : (getStake s user).initialized = false ∨ (getStake s user).amount = 0) :
    calculateRewards s user now = .ok 0 := by
  unfold calculateRewards
  rw [if_pos h]

/-- Witness for C10: a never-staked account on the fresh ledger. -/
theorem calculateRewards_idle_is_zero_witness :
    ((getStake (initialState 0) 5).initialized = false ∨
      (getStake (initialState 0) 5).amount = 0) ∧
    calculateRewards (initialState 0) 5 12345 = .ok 0 :=
  ⟨by decide, calculateRewards_idle_is_zero (initialState 0) 5 12345 (by decide)⟩

/-- Success characterization of the accrual engine: for an active record
with in-range intermediate products it returns exactly the truncating
formula. -/
lemma calculateRewards_active {s : State} {user now : Nat}
    (hinit : (getStake s user).initialized = true)
    (hamt : (getStake s user).amount ≠ 0)
    (hle : (getStake s user).lastRewardClaimTime ≤ now)
    (hm1 : (getStake s user).amount * (getStake s user).apy < UINT256_SIZE)
    (hm2 : (getStake s user).amount * (getStake s user).apy *
             (now - (getStake s user).lastRewardClaimTime) < UINT256_SIZE) :
    calculateRewards s user now =
      .ok ((getStake s user).amount * (getStake s user).apy *
           (now - (getStake s user).lastRewardClaimTime) /
           (SECONDS_PER_YEAR * PERCENTAGE_DENOMINATOR)) := by
  simp [calculateRewards, checkedSub, checkedMul, hinit, hamt, hle, hm1, hm2]

/-- C2: whenever `calculateRewards` computes a reward for an active
stake at `now ≥ lastRewardClaimTime`, the reward is exactly
`floor(amount * apy * (now - lastRewardClaimTime) / (365*86400*10000))`
(integer division truncating toward zero); in particular
`1000 * 1500 * (15*86400) / (365*86400*10000) = 6`. -/
theorem calculateRewards_is_floor_formula (s : State) (user now r : Nat)
    (hact : (getStake s user).initialized = true ∧ (getStake s user).amount ≠ 0)
    (hle : (getStake s user).lastRewardClaimTime ≤ now)
    (h : calculateRewards s user now = .ok r) :
    r = (getStake s user).amount * (getStake s user).apy *
        (now - (getStake s user).lastRewardClaimTime) / (365 * 86400 * 10000) ∧
    (1000 * 1500 * (15 * 86400)) / (365 * 86400 * 10000) = 6 := by
  refine ⟨?_, by norm_num⟩
  unfold calculateRewards at h
  rw [if_neg (by simp [hact.1, hact.2])] at h
  repeat' split at h
  all_goals cases h
  rename_i x2 t hsub x1 p1 hmul1 x0 num hmul2
  obtain ⟨_, hts⟩ := checkedSub_some hsub
  obtain ⟨hp1, _⟩ := checkedMul_some hmul1
  obtain ⟨hnum, _⟩ := checkedMul_some hmul2
  rw [hnum, hp1, hts]
  norm_num [SECONDS_PER_YEAR, SECONDS_PER_DAY, PERCENTAGE_DENOMINATOR]

/-- Witness for C2: 1000 units at 1500 bp, 15 days elapsed, reward 6
(6.164... truncated). -/
theorem calculateRewards_is_floor_formula_witness :
    (calculateRewards exState 1 (15 * 86400) = .ok 6) ∧
    (6 = (getStake exState 1).amount * (getStake exState 1).apy *
        ((15 * 86400) - (getStake exState 1).lastRewardClaimTime) /
        (365 * 86400 * 10000) ∧
     (1000 * 1500 * (15 * 86400)) / (365 * 86400 * 10000) = 6) :=
  ⟨by decide,
   calculateRewards_is_floor_formula exState 1 (15 * 86400) 6
     (by decide) (by decide) (by decide)⟩

lemma stake_pullFail_errors (s : State) (sender amount lp now : Nat) :
    ∃ e, stake s sender amount lp now false = .error e := by
  unfold stake
  repeat' split
  all_goals first
  | exact ⟨_, rfl⟩
  | simp_all

lemma claimRewards_pushFail_errors (s : State) (sender now : Nat) :
    ∃ e, claimRewards s sender now false = .error e := by
  unfold claimRewards
  repeat' split
  all_goals first
  | exact ⟨_, rfl⟩
  | simp_all

lemma unstake_pushFail_errors (s : State) (sender now : Nat) (ok2 : Bool) :
    ∃ e, unstake s sender now false ok2 = .error e := by
  unfold unstake
  repeat' split
  all_goals first
  | exact ⟨_, rfl⟩
  | simp_all

lemma fundRewardPool_pullFail_errors (s : State) (sender amount : Nat) :
    ∃ e, fundRewardPool s sender amount false = .error e := by
  unfold fundRewardPool
  repeat' split
  all_goals first
  | exact ⟨_, rfl⟩
  | simp_all

/-- C3: a rejected token transfer makes the whole operation revert: with
the transfer reporting failure the operation never succeeds and the
post-transaction storage is exactly the pre-state (including
`fundRewardPool`'s staged pool increment and `claimRewards`' staged
`lastRewardClaimTime` update); moreover whenever the operation would
succeed with the transfer accepted, rejecting that same transfer yields
precisely the transfer-failure revert. -/
theorem transfer_failure_is_atomic :
    (∀ (s : State) (sender amount lp now : Nat),
        applyOp s (Op.stakeOp sender amount lp now false) = s) ∧
    (∀ (s : State) (sender now : Nat),
        applyOp s (Op.claimOp sender now false) = s) ∧
    (∀ (s : State) (sender now : Nat) (ok2 : Bool),
        applyOp s (Op.unstakeOp sender now false ok2) = s) ∧
    (∀ (s : State) (sender amount : Nat),
        applyOp s (Op.fundOp sender amount false) = s) ∧
    (∀ (s s1 : State) (sender amount lp now : Nat),
        stake s sender amount lp now true = .ok s1 →
        stake s sender amount lp now false = .error .transferFailed) ∧
    (∀ (s : State) (r : State × Nat) (sender now : Nat),
        claimRewards s sender now true = .ok r →
        claimRewards s sender now false = .error .rewardsTransferFailed) ∧
    (∀ (s : State) (r : State × Nat × Nat) (sender now : Nat) (ok2 : Bool),
        unstake s sender now true true = .ok r →
        unstake s sender now false ok2 = .error .transferFailed ∧
        (0 < r.2.2 → unstake s sender now true false = .error .rewardsTransferFailed)) ∧
    (∀ (s s1 : State) (sender amount : Nat),
        fundRewardPool s sender amount true = .ok s1 →
        fundRewardPool s sender amount false = .error .transferFailed) := by
  refine ⟨?_, ?_, ?_, ?_, ?_, ?_, ?_, ?_⟩
  · intro s sender amount lp now
    show runState (stake s sender amount lp now false) s = s
    obtain ⟨e, he⟩ := stake_pullFail_errors s sender amount lp now
    rw [he]
    rfl
  · intro s sender now
    show runState1 (claimRewards s sender now false) s = s
    obtain ⟨e, he⟩ := claimRewards_pushFail_errors s sender now
    rw [he]
    rfl
  · intro s sender now ok2
    show runState2 (unstake s sender now false ok2) s = s
    obtain ⟨e, he⟩ := unstake_pushFail_errors s sender now ok2
    rw [he]
    rfl
  · intro s sender amount
    show runState (fundRewardPool s sender amount false) s = s
    obtain ⟨e, he⟩ := fundRewardPool_pullFail_errors s sender amount
    rw [he]
    rfl
  · intro s s1 sender amount lp now h
    unfold stake at h ⊢
    repeat' split at h
    all_goals cases h
    simp [*]
  · intro s r sender now h
    unfold claimRewards at h ⊢
    repeat' split at h
    all_goals cases h
    simp [*]
  · intro s r sender now ok2 h
    unfold unstake at h ⊢
    repeat' split at h
    all_goals cases h
    constructor
    · simp [*]
    · intro hr
      simp only at hr
      simp [*]
  · intro s s1 sender amount h
    unfold fundRewardPool at h ⊢
    repeat' split at h
    all_goals cases h
    simp [*]

/-- Witness for C3 at concrete inputs: each operation succeeds with the
transfer accepted, and reverts with the matching transfer-failure error
— leaving storage untouched — when it is rejected. -/
theorem transfer_failure_is_atomic_witness :
    applyOp exState (Op.unstakeOp 1 (30 * 86400) false true) = exState ∧
    stake (initialState 0) 1 1000 30 0 false = .error .transferFailed ∧
    claimRewards exState 1 (15 * 86400) false = .error .rewardsTransferFailed ∧
    (unstake exState 1 (30 * 86400) false true = .error .transferFailed ∧
     unstake exState 1 (30 * 86400) true false = .error .rewardsTransferFailed) ∧
    fundRewardPool (initialState 0) 1 50 false = .error .transferFailed :=
  ⟨transfer_failure_is_atomic.2.2.1 exState 1 (30 * 86400) true,
   transfer_failure_is_atomic.2.2.2.2.1 (initialState 0)
     (applyOp (initialState 0) (Op.stakeOp 1 1000 30 0 true)) 1 1000 30 0 (by decide),
   transfer_failure_is_atomic.2.2.2.2.2.1 exState
     (applyOp exState (Op.claimOp 1 (15 * 86400) true), 6) 1 (15 * 86400) (by decide),
   ⟨(transfer_failure_is_atomic.2.2.2.2.2.2.1 exState
       (applyOp exState (Op.unstakeOp 1 (30 * 86400) true true), 1000, 12)
       1 (30 * 86400) true (by decide)).1,
    (transfer_failure_is_atomic.2.2.2.2.2.2.1 exState
       (applyOp exState (Op.unstakeOp 1 (30 * 86400) true true), 1000, 12)
       1 (30 * 86400) true (by decide)).2 (by decide)⟩,
   transfer_failure_is_atomic.2.2.2.2.2.2.2 (initialState 0)
     (applyOp (initialState 0) (Op.fundOp 1 50 true)) 1 50 (by decide)⟩

lemma amount_le_totalStaked {s : State} {sender : Nat} (hwf : WF s)
    (hact : (getStake s sender).initialized = true ∧ (getStake s sender).amount ≠ 0) :
    (getStake s sender).amount ≤ s.totalStaked := by
  obtain ⟨hnd, hsum⟩ := hwf
  have herase := sumActive_eraseAcct (a := sender) hnd
  have hamt : activeAmount (getStakeL s.stakes sender) = (getStake s sender).amount := by
    rw [← getStake]
    exact activeAmount_of_active hact
  rw [hamt] at herase
  omega

lemma wf_exState : WF exState := ⟨by decide, by decide⟩

/-- C4: with an active stake, `unstake` before `lockEndTime` reverts
with the still-locked error and leaves storage unchanged; from
`lockEndTime` on (the boundary included, since the require is `>=`) it
succeeds, deletes the record, subtracts the record's amount from
`totalStaked`, and pays principal plus the accrued reward. -/
theorem unstake_lock_enforcement :
    (∀ (s : State) (sender now : Nat) (ok1 ok2 : Bool),
        (getStake s sender).initialized = true →
        0 < (getStake s sender).amount →
        now < (getStake s sender).lockEndTime →
        unstake s sender now ok1 ok2 = .error .stakeStillLocked ∧
        applyOp s (Op.unstakeOp sender now ok1 ok2) = s) ∧
    (∀ (s : State) (sender now : Nat),
        WF s →
        (getStake s sender).initialized = true →
        0 < (getStake s sender).amount →
        (getStake s sender).lockEndTime ≤ now →
        (getStake s sender).lastRewardClaimTime ≤ now →
        (getStake s sender).amount * (getStake s sender).apy < UINT256_SIZE →
        (getStake s sender).amount * (getStake s sender).apy *
          (now - (getStake s sender).lastRewardClaimTime) < UINT256_SIZE →
        unstake s sender now true true =
          .ok ({ deleteStake s sender with
                   totalStaked := s.totalStaked - (getStake s sender).amount },
               (getStake s sender).amount,
               (getStake s sender).amount * (getStake s sender).apy *
                 (now - (getStake s sender).lastRewardClaimTime) /
                 (SECONDS_PER_YEAR * PERCENTAGE_DENOMINATOR))) := by
  constructor
  · intro s sender now ok1 ok2 hinit hamt hlt
    have herr : unstake s sender now ok1 ok2 = .error .stakeStillLocked := by
      unfold unstake
      rw [if_pos ⟨hinit, hamt⟩, if_pos hlt]
    refine ⟨herr, ?_⟩
    show runState2 (unstake s sender now ok1 ok2) s = s
    rw [herr]
    rfl
  · intro s sender now hwf hinit hamt hlock hle hm1 hm2
    have hsuble : (getStake s sender).amount ≤ s.totalStaked :=
      amount_le_totalStaked hwf ⟨hinit, Nat.pos_iff_ne_zero.mp hamt⟩
    unfold unstake
    rw [if_pos ⟨hinit, hamt⟩, if_neg (not_lt.mpr hlock),
        calculateRewards_active hinit (Nat.pos_iff_ne_zero.mp hamt) hle hm1 hm2]
    unfold checkedSub
    rw [if_pos hsuble]
    simp

/-- Witness for C4: at `exState`, unstaking one second early reverts
still-locked; unstaking exactly at `lockEndTime` succeeds and pays
principal 1000 plus reward 12. -/
theorem unstake_lock_enforcement_witness :
    (unstake exState 1 (30 * 86400 - 1) true true = .error .stakeStillLocked ∧
     applyOp exState (Op.unstakeOp 1 (30 * 86400 - 1) true true) = exState) ∧
    unstake exState 1 (30 * 86400) true true =
      .ok ({ deleteStake exState 1 with
               totalStaked := exState.totalStaked - (getStake exState 1).amount },
           (getStake exState 1).amount,
           (getStake exState 1).amount * (getStake exState 1).apy *
             ((30 * 86400) - (getStake exState 1).lastRewardClaimTime) /
             (SECONDS_PER_YEAR * PERCENTAGE_DENOMINATOR)) :=
  ⟨unstake_lock_enforcement.1 exState 1 (30 * 86400 - 1) true true
     (by decide) (by decide) (by decide),
   unstake_lock_enforcement.2 exState 1 (30 * 86400) wf_exState
     (by decide) (by decide) (by decide) (by decide) (by decide) (by decide)⟩

/-- C5: a successful `updateStakingTier` changes only the APY of the
tier at `index`: its lock period, all other tiers, the whole stakes
mapping and every other storage field are unchanged, and the reward
accrual of every open stake (which reads only the frozen per-stake APY)
is identical before and after. -/
theorem updateTierAPY_frame (s s1 : State) (sender index apy : Nat)
    (h : updateStakingTier s sender index apy = .ok s1) :
    s1.stakingTiers.length = s.stakingTiers.length ∧
    (s1.stakingTiers.getD index default).lockPeriod =
      (s.stakingTiers.getD index default).lockPeriod ∧
    (s1.stakingTiers.getD index default).apy = apy ∧
    (∀ j, j ≠ index → s1.stakingTiers.getD j default = s.stakingTiers.getD j default) ∧
    s1.stakes = s.stakes ∧
    s1.totalStaked = s.totalStaked ∧
    s1.rewardPoolBalance = s.rewardPoolBalance ∧
    s1.paused = s.paused ∧
    s1.owner = s.owner ∧
    (∀ u now2, calculateRewards s1 u now2 = calculateRewards s u now2) := by
  unfold updateStakingTier at h
  repeat' split at h
  all_goals cases h
  rename_i hown hlen hapy
  have hidx : index < s.stakingTiers.length := Nat.not_le.mp hlen
  refine ⟨by simp, ?_, ?_, ?_, rfl, rfl, rfl, rfl, rfl, fun u now2 => rfl⟩
  · show ((s.stakingTiers.set index _).getD index default).lockPeriod = _
    simp [List.getD_eq_getElem?_getD, List.getElem?_set_self, hidx]
  · show ((s.stakingTiers.set index _).getD index default).apy = apy
    simp [List.getD_eq_getElem?_getD, List.getElem?_set_self, hidx]
  · intro j hj
    show (s.stakingTiers.set index _).getD j default = s.stakingTiers.getD j default
    simp [List.getD_eq_getElem?_getD, List.getElem?_set_ne (Ne.symm hj)]

/-- Witness for C5: the operator raises tier 0's APY from 1500 to 3000;
the lock period, the stakes mapping and the open stake's accrual (still
at the frozen 1500) are untouched. -/
theorem updateTierAPY_frame_witness :
    ((applyOp exState (Op.updateTierOp 0 0 3000)).stakingTiers.getD 0 default).lockPeriod =
      (exState.stakingTiers.getD 0 default).lockPeriod ∧
    ((applyOp exState (Op.updateTierOp 0 0 3000)).stakingTiers.getD 0 default).apy = 3000 ∧
    (applyOp exState (Op.updateTierOp 0 0 3000)).stakes = exState.stakes ∧
    calculateRewards (applyOp exState (Op.updateTierOp 0 0 3000)) 1 (15 * 86400) =
      calculateRewards exState 1 (15 * 86400) :=
  have h := updateTierAPY_frame exState
    (applyOp exState (Op.updateTierOp 0 0 3000)) 0 0 3000 (by decide)
  ⟨h.2.1, h.2.2.1, h.2.2.2.2.1, h.2.2.2.2.2.2.2.2.2 1 (15 * 86400)⟩

set_option maxRecDepth 8192 in
lemma unstake_ignores_pause (s : State) (p q : Bool) (sender now : Nat)
    (ok1 ok2 : Bool) :
    unstake { s with paused := p } sender now ok1 ok2 =
      (unstake { s with paused := q } sender now ok1 ok2).map
        (fun r => ({ r.1 with paused := p }, r.2)) := by
  have hg : ∀ b : Bool, getStake { s with paused := b } sender = getStake s sender :=
    fun b => rfl
  have hcalc : ∀ b : Bool, calculateRewards { s with paused := b } sender now
      = calculateRewards s sender now := fun b => rfl
  unfold unstake
  simp only [hg, hcalc]
  repeat' split
  all_goals rfl

set_option maxRecDepth 8192 in
lemma emergencyWithdraw_ignores_pause (s : State) (p q : Bool) (sender : Nat)
    (ok : Bool) :
    emergencyWithdraw { s with paused := p } sender ok =
      (emergencyWithdraw { s with paused := q } sender ok).map
        (fun r => ({ r.1 with paused := p }, r.2)) := by
  have hg : ∀ b : Bool, getStake { s with paused := b } sender = getStake s sender :=
    fun b => rfl
  unfold emergencyWithdraw
  simp only [hg]
  repeat' split
  all_goals rfl

/-- C6: while paused, `stake` and `claimRewards` revert with the pause
error and leave storage untouched; `unstake` and `emergencyWithdraw`
never read the pause flag — on two states differing only in the flag
they produce the same outcome (same error, or same payouts and same
post-state apart from the untouched flag itself). -/
theorem pause_gating :
    (∀ (s : State) (sender amount lp now : Nat) (ok : Bool), s.paused = true →
        stake s sender amount lp now ok = .error .enforcedPause ∧
        applyOp s (Op.stakeOp sender amount lp now ok) = s) ∧
    (∀ (s : State) (sender now : Nat) (ok : Bool), s.paused = true →
        claimRewards s sender now ok = .error .enforcedPause ∧
        applyOp s (Op.claimOp sender now ok) = s) ∧
    (∀ (s : State) (p q : Bool) (sender now : Nat) (ok1 ok2 : Bool),
        unstake { s with paused := p } sender now ok1 ok2 =
          (unstake { s with paused := q } sender now ok1 ok2).map
            (fun r => ({ r.1 with paused := p }, r.2))) ∧
    (∀ (s : State) (p q : Bool) (sender : Nat) (ok : Bool),
        emergencyWithdraw { s with paused := p } sender ok =
          (emergencyWithdraw { s with paused := q } sender ok).map
            (fun r => ({ r.1 with paused := p }, r.2))) := by
  refine ⟨?_, ?_, unstake_ignores_pause, emergencyWithdraw_ignores_pause⟩
  · intro s sender amount lp now ok hp
    have herr : stake s sender amount lp now ok = .error .enforcedPause := by
      unfold stake
      rw [if_pos hp]
    refine ⟨herr, ?_⟩
    show runState (stake s sender amount lp now ok) s = s
    rw [herr]
    rfl
  · intro s sender now ok hp
    have herr : claimRewards s sender now ok = .error .enforcedPause := by
      unfold claimRewards
      rw [if_pos hp]
    refine ⟨herr, ?_⟩
    show runState1 (claimRewards s sender now ok) s = s
    rw [herr]
    rfl

/-- Witness for C6: on the paused variant of `exState`, `stake` and
`claimRewards` revert with the pause error and change nothing, while
`unstake` and `emergencyWithdraw` behave exactly as on the unpaused
variant. -/
theorem pause_gating_witness :
    (stake { exState with paused := true } 2 500 30 0 true = .error .enforcedPause ∧
     applyOp { exState with paused := true } (Op.stakeOp 2 500 30 0 true) =
       { exState with paused := true }) ∧
    (claimRewards { exState with paused := true } 1 (15 * 86400) true =
       .error .enforcedPause ∧
     applyOp { exState with paused := true } (Op.claimOp 1 (15 * 86400) true) =
       { exState with paused := true }) ∧
    unstake { exState with paused := true } 1 (30 * 86400) true true =
      (unstake { exState with paused := false } 1 (30 * 86400) true true).map
        (fun r => ({ r.1 with paused := true }, r.2)) ∧
    emergencyWithdraw { exState with paused := true } 1 true =
      (emergencyWithdraw { exState with paused := false } 1 true).map
        (fun r => ({ r.1 with paused := true }, r.2)) :=
  ⟨pause_gating.1 { exState with paused := true } 2 500 30 0 true (by decide),
   pause_gating.2.1 { exState with paused := true } 1 (15 * 86400) true (by decide),
   pause_gating.2.2.1 exState true false 1 (30 * 86400) true true,
   pause_gating.2.2.2 exState true false 1 true⟩

lemma getStake_setStake (s : State) (a : Nat) (i : StakeInfo) :
    getStake (setStake s a i) a = i := by
  simp [getStake, setStake, getStakeL, List.find?_cons]

lemma calculateRewards_zero_of_last_eq_now {s : State} {user now : Nat}
    (hlast : (getStake s user).lastRewardClaimTime = now)
    (hm1 : (getStake s user).amount * (getStake s user).apy < UINT256_SIZE) :
    calculateRewards s user now = .ok 0 := by
  unfold calculateRewards
  split
  · rfl
  · unfold checkedSub checkedMul
    rw [hlast]
    have hpos : 0 < UINT256_SIZE := by decide
    simp [hm1, hpos]

lemma calculateRewards_ok_mul_lt {s : State} {user now r : Nat}
    (hact : (getStake s user).initialized = true ∧ (getStake s user).amount ≠ 0)
    (h : calculateRewards s user now = .ok r) :
    (getStake s user).amount * (getStake s user).apy < UINT256_SIZE := by
  unfold calculateRewards at h
  rw [if_neg (by simp [hact.1, hact.2])] at h
  repeat' split at h
  all_goals cases h
  exact (checkedMul_some (by assumption)).2

/-- C7: if `claimRewards` succeeds at time `now`, an immediately
repeated `claimRewards` at the same `now` (zero elapsed time since
`lastRewardClaimTime` was just set to `now`) reverts with
`NoRewardsToClaim` and leaves the state unchanged. -/
theorem claim_twice_second_fails (s : State) (sender now : Nat) (ok1 ok2 : Bool)
    (r : State × Nat) (h : claimRewards s sender now ok1 = .ok r) :
    claimRewards r.1 sender now ok2 = .error .noRewardsToClaim ∧
    applyOp r.1 (Op.claimOp sender now ok2) = r.1 := by
  unfold claimRewards at h
  repeat' split at h
  all_goals cases h
  rename_i hpause hact x rewards hcalc hzero hok
  have hmul : (getStake s sender).amount * (getStake s sender).apy < UINT256_SIZE :=
    calculateRewards_ok_mul_lt ⟨hact.1, Nat.pos_iff_ne_zero.mp hact.2⟩ hcalc
  have hS : calculateRewards
      (setStake s sender { getStake s sender with lastRewardClaimTime := now })
      sender now = .ok 0 := by
    apply calculateRewards_zero_of_last_eq_now
    · rw [getStake_setStake]
    · rw [getStake_setStake]
      exact hmul
  have hsp : ∀ (t : State) (a : Nat) (i : StakeInfo), (setStake t a i).paused = t.paused :=
    fun t a i => rfl
  have herr : claimRewards
      (setStake s sender { getStake s sender with lastRewardClaimTime := now })
      sender now ok2 = .error .noRewardsToClaim := by
    unfold claimRewards
    rw [hS]
    simp only [getStake_setStake, hsp]
    rw [if_neg hpause, if_pos ⟨hact.1, hact.2⟩]
    simp
  refine ⟨herr, ?_⟩
  show runState1 (claimRewards _ sender now ok2) _ = _
  rw [herr]
  rfl

/-- Witness for C7: claiming at 15 days succeeds with reward 6; the
immediate second claim reverts `NoRewardsToClaim` and changes nothing. -/
theorem claim_twice_second_fails_witness :
    claimRewards (applyOp exState (Op.claimOp 1 (15 * 86400) true), 6).1
        1 (15 * 86400) true = .error .noRewardsToClaim ∧
    applyOp (applyOp exState (Op.claimOp 1 (15 * 86400) true), 6).1
        (Op.claimOp 1 (15 * 86400) true) =
      (applyOp exState (Op.claimOp 1 (15 * 86400) true), 6).1 :=
  claim_twice_second_fails exState 1 (15 * 86400) true true
    (applyOp exState (Op.claimOp 1 (15 * 86400) true), 6) (by decide)

/-- C8: for an active stake with `amount < 2^128`, `apy ≤ 3000` and
elapsed seconds `< 2^64`, both intermediate products of
`amount * apy * timeElapsed` stay below `2^256`, so `calculateRewards`
returns the exact mathematical value instead of reverting on overflow;
the tier mutators enforce the `apy ≤ 3000` cap. -/
theorem reward_computation_no_overflow :
    (∀ (s : State) (user now : Nat),
        (getStake s user).initialized = true →
        (getStake s user).amount ≠ 0 →
        (getStake s user).amount < 2 ^ 128 →
        (getStake s user).apy ≤ 3000 →
        (getStake s user).lastRewardClaimTime ≤ now →
        now - (getStake s user).lastRewardClaimTime < 2 ^ 64 →
        (getStake s user).amount * (getStake s user).apy < UINT256_SIZE ∧
        (getStake s user).amount * (getStake s user).apy *
          (now - (getStake s user).lastRewardClaimTime) < UINT256_SIZE ∧
        calculateRewards s user now =
          .ok ((getStake s user).amount * (getStake s user).apy *
               (now - (getStake s user).lastRewardClaimTime) /
               (SECONDS_PER_YEAR * PERCENTAGE_DENOMINATOR))) ∧
    (∀ (s s1 : State) (sender lp apy : Nat),
        addStakingTier s sender lp apy = .ok s1 → 0 < apy ∧ apy ≤ 3000) ∧
    (∀ (s s1 : State) (sender index apy : Nat),
        updateStakingTier s sender index apy = .ok s1 → 0 < apy ∧ apy ≤ 3000) := by
  refine ⟨?_, ?_, ?_⟩
  · intro s user now hinit hamt ha hp hle ht
    have ha' : (getStake s user).amount ≤ 2 ^ 128 - 1 := Nat.le_sub_one_of_lt ha
    have ht' : now - (getStake s user).lastRewardClaimTime ≤ 2 ^ 64 - 1 :=
      Nat.le_sub_one_of_lt ht
    have hb1 : (getStake s user).amount * (getStake s user).apy ≤
        (2 ^ 128 - 1) * 3000 := Nat.mul_le_mul ha' hp
    have hm1 : (getStake s user).amount * (getStake s user).apy < UINT256_SIZE :=
      lt_of_le_of_lt hb1 (by decide)
    have hb2 : (getStake s user).amount * (getStake s user).apy *
        (now - (getStake s user).lastRewardClaimTime) ≤
        (2 ^ 128 - 1) * 3000 * (2 ^ 64 - 1) := Nat.mul_le_mul hb1 ht'
    have hm2 : (getStake s user).amount * (getStake s user).apy *
        (now - (getStake s user).lastRewardClaimTime) < UINT256_SIZE :=
      lt_of_le_of_lt hb2 (by decide)
    exact ⟨hm1, hm2, calculateRewards_active hinit hamt hle hm1 hm2⟩
  · intro s s1 sender lp apy h
    unfold addStakingTier at h
    repeat' split at h
    all_goals cases h
    have hapy : ¬ (apy = 0 ∨ 3000 < apy) := by assumption
    omega
  · intro s s1 sender index apy h
    unfold updateStakingTier at h
    repeat' split at h
    all_goals cases h
    have hapy : ¬ (apy = 0 ∨ 3000 < apy) := by assumption
    omega

/-- Witness for C8: the `exState` stake (1000 units, 1500 bp, 15 days)
is far below the overflow bounds, and concrete tier mutations respect
the cap. -/
theorem reward_computation_no_overflow_witness :
    ((getStake exState 1).amount * (getStake exState 1).apy < UINT256_SIZE ∧
     (getStake exState 1).amount * (getStake exState 1).apy *
       ((15 * 86400) - (getStake exState 1).lastRewardClaimTime) < UINT256_SIZE ∧
     calculateRewards exState 1 (15 * 86400) =
       .ok ((getStake exState 1).amount * (getStake exState 1).apy *
            ((15 * 86400) - (getStake exState 1).lastRewardClaimTime) /
            (SECONDS_PER_YEAR * PERCENTAGE_DENOMINATOR))) ∧
    (0 < 2000 ∧ 2000 ≤ 3000) ∧
    (0 < 3000 ∧ 3000 ≤ 3000) :=
  ⟨reward_computation_no_overflow.1 exState 1 (15 * 86400)
     (by decide) (by decide) (by decide) (by decide) (by decide) (by decide),
   reward_computation_no_overflow.2.1 (initialState 0)
     (applyOp (initialState 0) (Op.addTierOp 0 45 2000)) 0 45 2000 (by decide),
   reward_computation_no_overflow.2.2 exState
     (applyOp exState (Op.updateTierOp 0 0 3000)) 0 0 3000 (by decide)⟩

/-- C9: for an active stake record, in any lock state,
`emergencyWithdraw` deletes the record, subtracts the record's amount
from `totalStaked`, and pays out exactly the principal; it never reads
the clock or the accrual engine, so the payout is unchanged under any
modification of the record's APY and last-claim fields. -/
theorem emergencyExit_principal_only (s : State) (sender : Nat)
    (hwf : WF s)
    (hinit : (getStake s sender).initialized = true)
    (hamt : 0 < (getStake s sender).amount) :
    emergencyWithdraw s sender true =
      .ok ({ deleteStake s sender with
               totalStaked := s.totalStaked - (getStake s sender).amount },
           (getStake s sender).amount) ∧
    (∀ apy2 lct2,
        (emergencyWithdraw
           (setStake s sender
             { getStake s sender with apy := apy2, lastRewardClaimTime := lct2 })
           sender true).map Prod.snd = .ok (getStake s sender).amount) := by
  have hle := amount_le_totalStaked hwf ⟨hinit, Nat.pos_iff_ne_zero.mp hamt⟩
  constructor
  · unfold emergencyWithdraw
    rw [if_pos ⟨hinit, hamt⟩]
    unfold checkedSub
    rw [if_pos hle]
    simp
  · intro apy2 lct2
    have hst : ∀ (t : State) (a : Nat) (i : StakeInfo),
        (setStake t a i).totalStaked = t.totalStaked := fun t a i => rfl
    unfold emergencyWithdraw
    simp only [getStake_setStake, hst]
    rw [if_pos ⟨hinit, hamt⟩]
    unfold checkedSub
    rw [if_pos hle]
    rfl

/-- Witness for C9: emergency exit from `exState` mid-lock pays exactly
the 1000-unit principal, also after tampering with the record's APY and
last-claim time. -/
theorem emergencyExit_principal_only_witness :
    emergencyWithdraw exState 1 true =
      .ok ({ deleteStake exState 1 with
               totalStaked := exState.totalStaked - (getStake exState 1).amount },
           (getStake exState 1).amount) ∧
    (emergencyWithdraw
       (setStake exState 1
         { getStake exState 1 with apy := 999999, lastRewardClaimTime := 77 })
       1 true).map Prod.snd = .ok (getStake exState 1).amount :=
  have h := emergencyExit_principal_only exState 1 wf_exState (by decide) (by decide)
  ⟨h.1, h.2 999999 77⟩
